import Mathlib

/-!
Verification development for the Power_Automate flow-execution core.

Shallow embedding of `pad_framework/flows/flow_executor.py` and
`pad_framework/flows/async_executor.py`.

Modelling conventions, stated once:
* Python `Dict[str, Any]` values are modelled by `VarMap`, an association
  list of string keys to `PyVal` values (strings and integers suffice for
  everything the executors put into such dicts).
* The external single-item runner (`subprocess.run` inside
  `FlowExecutor._execute_flow`) is modelled by an oracle
  `Runner : String → VarMap → Nat → RunBehavior` giving, for a flow name,
  its input variables and a zero-based attempt index, what the subprocess
  call does on that attempt: complete with a return code and captured
  stdout/stderr, exceed the timeout (`subprocess.TimeoutExpired`), or raise
  some other exception with a message.
* Python exceptions are modelled with `Except String`: `.error msg` is a
  raised exception whose `str()` is `msg`.
* `str(uuid.uuid4())` is modelled by `uuid4` applied to a counter threaded
  through the composite executors; only freshness/non-emptiness of the
  string matters, never its format.
* Wall-clock fields of `FlowExecutionResult` (`start_time`, `end_time`,
  `duration`, produced from `datetime.now()`) are real-time observations
  and are not modelled; ordering of executions is instead captured by an
  explicit event trace (`Ev.start` / `Ev.finish` per flow execution)
  recorded by the composite executors.
* `asyncio` specifics: `AsyncFlowExecutor.execute_async` acquires a
  semaphore and runs `FlowExecutor.execute` on a thread pool, returning its
  result and re-raising its exceptions; since `FlowExecutor.execute`
  catches every exception, `execute_async` reduces to a pure call of
  `execute`. In `execute_with_dependencies` the per-wave "tasks" are bare
  coroutine objects that are awaited one at a time in a `for` loop (they
  are never wrapped in `asyncio.Task` or passed to `gather`), so a wave
  executes strictly sequentially in the order the ready list was built; the
  embedding makes this sequential order explicit. `ready` is a
  comprehension over the Python set `remaining`, whose iteration order is
  unspecified; the embedding uses the graph's insertion order. None of the
  proved properties below depend on the order chosen within a round.
-/

/-- Values stored in the opaque string-keyed dictionaries that flow between
the executors (`input_variables`, `output`). -/
inductive PyVal where
  | str (s : String)
  | int (n : Int)
deriving DecidableEq, Repr

/-- A Python `Dict[str, Any]` as used by the executors. -/
abbrev VarMap := List (String × PyVal)

/-- What one `subprocess.run` invocation inside `_execute_flow` does:
complete with a return code and captured output, exceed the timeout
(`subprocess.TimeoutExpired`), or raise some other exception. -/
inductive RunBehavior where
  | completes (returncode : Int) (stdout stderr : String)
  | timesOut
  | raises (msg : String)
deriving DecidableEq, Repr

/-- Oracle for the external single-item runner: flow name, input variables
and zero-based attempt index determine the behaviour of that attempt. -/
abbrev Runner := String → VarMap → Nat → RunBehavior

/-- Embedding of the dataclass `FlowExecutionResult`
(flow_executor.py). The real-time fields `start_time`, `end_time` and
`duration` are not modelled (see the file header); defaults mirror the
dataclass defaults. The dataclass has no attempts field. -/
structure FlowExecutionResult where
  flow_name : String
  /-- Status string; the dataclass comment lists
  "success, failed, timeout, cancelled" as intended values. -/
  status : String
  output : VarMap
  error : Option String := none
  execution_id : String := ""
deriving DecidableEq, Repr

/-- Embedding of `FlowExecutionResult.__post_init__`: if `execution_id` is
the empty string, replace it with a fresh `str(uuid.uuid4())`, here passed
in as `fresh`. -/
def postInit (r : FlowExecutionResult) (fresh : String) : FlowExecutionResult :=
  if r.execution_id = "" then { r with execution_id := fresh } else r

/-- Model of `str(uuid.uuid4())` as a counter-indexed fresh string. -/
def uuid4 (n : Nat) : String := "uuid-" ++ toString n

/-- Exception text raised by `_execute_flow` on `subprocess.TimeoutExpired`:
"Flow execution timed out after {timeout} seconds". -/
def timeoutMsg (timeout : Nat) : String :=
  "Flow execution timed out after " ++ toString timeout ++ " seconds"

/-- Exception text raised by `_execute_flow` on a nonzero return code:
"Flow execution failed with code {returncode}: {stderr}". -/
def nonzeroMsg (returncode : Int) (stderr : String) : String :=
  "Flow execution failed with code " ++ toString returncode ++ ": " ++ stderr

/-- The output dict `_execute_flow` builds from a completed subprocess:
{"return_code": …, "stdout": …, "stderr": …}. -/
def outputVars (returncode : Int) (stdout stderr : String) : VarMap :=
  [("return_code", .int returncode), ("stdout", .str stdout), ("stderr", .str stderr)]

/-- Embedding of `FlowExecutor._execute_flow` applied to one attempt's
subprocess behaviour: a timeout is converted to a raised generic
`Exception` with `timeoutMsg`; a nonzero return code raises `nonzeroMsg`;
any other exception from the call propagates (only `TimeoutExpired` is
caught); a zero return code returns the output dict. -/
def executeFlow (beh : RunBehavior) (timeout : Nat) : Except String VarMap :=
  match beh with
  | .timesOut => .error (timeoutMsg timeout)
  | .raises msg => .error msg
  | .completes rc out err =>
      if rc ≠ 0 then .error (nonzeroMsg rc err) else .ok (outputVars rc out err)

/-- Text of the `tenacity.RetryError` raised when the retry decorator on
`_execute_with_retry` exhausts its attempts. Its real `str()` is the repr
of the decorator's internal future ("RetryError[<Future … raised …>]");
the model records only that it is the RetryError wrapper text, which in
particular is not the text of the underlying exception. -/
def retryErrorMsg : String := "RetryError[<Future state=finished raised Exception>]"

/-- Embedding of `FlowExecutor._execute_with_retry` together with its
`@retry(stop=stop_after_attempt(3), wait=wait_exponential(…))` decorator:
call `_execute_flow` up to three times, re-invoking on any exception (the
backoff waits are real-time only and not modelled); after the third
failure the decorator raises `tenacity.RetryError`. The `retry_count`
parameter of the Python method is received but never used: the attempt
bound is the decorator's fixed 3. Returns the outcome together with the
number of attempts actually made. -/
def executeWithRetry (beh : Nat → RunBehavior) (timeout : Nat)
    (retry_count : Nat) : Except String VarMap × Nat :=
  let _ := retry_count
  match executeFlow (beh 0) timeout with
  | .ok v => (.ok v, 1)
  | .error _ =>
    match executeFlow (beh 1) timeout with
    | .ok v => (.ok v, 2)
    | .error _ =>
      match executeFlow (beh 2) timeout with
      | .ok v => (.ok v, 3)
      | .error _ => (.error retryErrorMsg, 3)

/-- Embedding of the timeout defaulting in `FlowExecutor.execute`:
`timeout = timeout or self.config.get("execution.default_timeout", 300)`.
Python `or` replaces both `None` and `0` by the configured default; the
configuration lookup is modelled by its default value 300. -/
def resolveTimeout : Option Nat → Nat
  | none => 300
  | some t => if t = 0 then 300 else t

/-- Attempt dispatch of `FlowExecutor.execute`: with `retry_count > 0` it
calls `_execute_with_retry`, otherwise `_execute_flow` once. Returns the
outcome and the number of attempts made. -/
def executeCore (runner : Runner) (flow_name : String)
    (input_variables : VarMap) (timeout : Option Nat) (retry_count : Nat) :
    Except String VarMap × Nat :=
  let t := resolveTimeout timeout
  if retry_count > 0 then
    executeWithRetry (runner flow_name input_variables) t retry_count
  else
    (executeFlow (runner flow_name input_variables 0) t, 1)

/-- Embedding of `FlowExecutor.execute`: run the attempt dispatch; on
success build a result with status "success" and the output dict; on any
exception catch it and build a result with status "failed", empty output
and the exception text as `error`. `execution_id` is the
`str(uuid.uuid4())` generated at the top of the method, passed in as
`execution_id`. The method never lets an exception escape. -/
def FlowExecutor.execute (runner : Runner) (flow_name : String)
    (input_variables : VarMap) (timeout : Option Nat) (retry_count : Nat)
    (execution_id : String) : FlowExecutionResult :=
  match (executeCore runner flow_name input_variables timeout retry_count).1 with
  | .ok out =>
      { flow_name := flow_name, status := "success", output := out,
        error := none, execution_id := execution_id }
  | .error e =>
      { flow_name := flow_name, status := "failed", output := [],
        error := some e, execution_id := execution_id }

/-- Number of attempts `FlowExecutor.execute` makes (derived observation of
the same control flow; the Python result records no attempt count). -/
def executeAttempts (runner : Runner) (flow_name : String)
    (input_variables : VarMap) (timeout : Option Nat) (retry_count : Nat) : Nat :=
  (executeCore runner flow_name input_variables timeout retry_count).2

/-- Embedding of `AsyncFlowExecutor.execute_async` /
`AsyncFlowExecutor._execute_sync`: acquire the semaphore, generate an id
for logging, and run `FlowExecutor.execute` on the thread pool with
`input_variables or {}`; its result is returned and its exceptions would
be re-raised, but `FlowExecutor.execute` never raises. `fresh` is the
`str(uuid.uuid4())` that `FlowExecutor.execute` generates internally. -/
def executeAsync (runner : Runner) (flow_name : String)
    (input_variables : VarMap) (timeout : Option Nat) (retry_count : Nat)
    (fresh : String) : FlowExecutionResult :=
  FlowExecutor.execute runner flow_name input_variables timeout retry_count fresh

/-- One entry of the `executions` list taken by
`AsyncFlowExecutor.execute_batch` (and, with the same `.get` defaults, one
entry of the `flows` list of `execute_pipeline`): `exec_config['flow_name']`
is mandatory, `input_variables` defaults to `{}` (via
`exec_config.get('input_variables')` and `input_variables or {}`),
`timeout` defaults to `None`, `retry_count` defaults to `0`. -/
structure ExecConfig where
  flow_name : String
  input_variables : VarMap := []
  timeout : Option Nat := none
  retry_count : Nat := 0
deriving DecidableEq, Repr

/-- Helper enumerating the batch entries with the uuid counter. -/
def batchRun (runner : Runner) : List ExecConfig → Nat → List FlowExecutionResult
  | [], _ => []
  | cfg :: rest, ctr =>
      executeAsync runner cfg.flow_name cfg.input_variables cfg.timeout
        cfg.retry_count (uuid4 ctr) :: batchRun runner rest (ctr + 1)

/-- Embedding of `AsyncFlowExecutor.execute_batch`: build one
`execute_async` task per entry and `asyncio.gather` them. With
`fail_fast = True` the bare `gather(*tasks)` is used, with
`fail_fast = False` `gather(*tasks, return_exceptions=True)`; the two
differ only when a task raises, and `execute_async` never raises because
`FlowExecutor.execute` catches every exception, so both branches return
the full list of results in submission order. No cancellation of any kind
is performed. -/
def execute_batch (runner : Runner) (executions : List ExecConfig)
    (fail_fast : Bool) : List FlowExecutionResult :=
  let _ := fail_fast
  batchRun runner executions 0

/-- Observable scheduling events of the composite executors: one flow
execution starts / finishes. -/
inductive Ev where
  | start (flow_name : String)
  | finish (flow_name : String)
deriving DecidableEq, Repr

/-- One value of the `flow_graph` dict of `execute_with_dependencies`:
`config.get('dependencies', [])`, `config.get('input_variables')`,
`config.get('timeout')`, `config.get('retry_count', 0)`. -/
structure GraphConfig where
  dependencies : List String := []
  input_variables : VarMap := []
  timeout : Option Nat := none
  retry_count : Nat := 0
deriving DecidableEq, Repr

/-- The `flow_graph` dict, as an insertion-ordered association list with
(as in a Python dict) pairwise-distinct keys. -/
abbrev FlowGraph := List (String × GraphConfig)

/-- Lookup `flow_graph[flow_name]`; the callers below only apply it to
names that are keys of the graph, so the default is unreachable. -/
def cfgOf (graph : FlowGraph) (flow_name : String) : GraphConfig :=
  match graph.find? (fun p => p.1 = flow_name) with
  | some p => p.2
  | none => {}

/-- Whether `results` (the accumulated dict of `execute_with_dependencies`)
has an entry for `dep` — the test `dep in results`. -/
def hasResult (results : List (String × FlowExecutionResult)) (dep : String) : Bool :=
  results.any (fun p => p.1 = dep)

/-- The `ready` list of one round of `execute_with_dependencies`: the
remaining flows all of whose dependencies have an entry in `results`,
whatever the status of that entry. -/
def readyFlows (graph : FlowGraph) (remaining : List String)
    (results : List (String × FlowExecutionResult)) : List String :=
  remaining.filter (fun n => (cfgOf graph n).dependencies.all (hasResult results))

/-- Exception text of the `ValueError` raised by
`execute_with_dependencies` when no remaining flow is ready. -/
def circularMsg : String := "Circular dependency detected in flow graph"

/-- One round's `for flow_name, task in tasks: results[flow_name] = await task`:
the tasks are bare coroutines, so each is executed in full when awaited,
strictly one after the other in `ready` order. Returns the results of the
round and its event trace. -/
def runWave (runner : Runner) (graph : FlowGraph) :
    List String → Nat → List (String × FlowExecutionResult) × List Ev
  | [], _ => ([], [])
  | n :: rest, ctr =>
      let cfg := cfgOf graph n
      let r := executeAsync runner n cfg.input_variables cfg.timeout
        cfg.retry_count (uuid4 ctr)
      let step := runWave runner graph rest (ctr + 1)
      ((n, r) :: step.1, Ev.start n :: Ev.finish n :: step.2)

/-- The `while remaining:` loop of `execute_with_dependencies`. `fuel`
bounds the iterations; every executing round removes at least one flow
from `remaining`, so fuel `remaining.length` always suffices and the
zero-fuel fallback (which reports the same `ValueError` as an empty ready
list) is unreachable from `runGraph`. Returns either the results dict or
the `ValueError` text, together with the event trace of everything
executed before returning or raising. -/
def runGraphAux (runner : Runner) (graph : FlowGraph) :
    Nat → List String → List (String × FlowExecutionResult) → List Ev → Nat →
    Except String (List (String × FlowExecutionResult)) × List Ev
  | _, [], results, trace, _ => (.ok results, trace)
  | 0, _ :: _, _, trace, _ => (.error circularMsg, trace)
  | fuel + 1, remaining@(_ :: _), results, trace, ctr =>
      let ready := readyFlows graph remaining results
      if ready.isEmpty then (.error circularMsg, trace)
      else
        let step := runWave runner graph ready ctr
        runGraphAux runner graph fuel
          (remaining.filter (fun n => ¬ ready.contains n))
          (results ++ step.1) (trace ++ step.2) (ctr + ready.length)

/-- Embedding of `AsyncFlowExecutor.execute_with_dependencies`: repeatedly
execute the ready flows until none remain, raising `ValueError` when a
round finds none ready. Alongside the Python return value (the results
dict, or the raised `ValueError` text), the embedding records the event
trace of the flows that were executed. -/
def runGraph (runner : Runner) (graph : FlowGraph) :
    Except String (List (String × FlowExecutionResult)) × List Ev :=
  runGraphAux runner graph graph.length (graph.map (·.1)) [] [] 0

/-- The `current_input` assignment at the top of the `execute_pipeline`
loop body: `results[-1].output` when `pass_output` holds and results are
nonempty (`prevOut = some out`), otherwise the stage's own
`flow_config.get('input_variables', {})`. -/
def stageInput (pass_output : Bool) (prevOut : Option VarMap)
    (cfg : ExecConfig) : VarMap :=
  match prevOut with
  | some out => if pass_output then out else cfg.input_variables
  | none => cfg.input_variables

/-- The `for flow_config in flows:` loop of `execute_pipeline`. `prevOut`
is `some (results[-1].output)` when `results` is nonempty. Each list entry
pairs the `current_input` the stage actually ran with against the stage's
result; the Python return value is the list of second components. -/
def pipelineAux (runner : Runner) (pass_output : Bool) :
    List ExecConfig → Option VarMap → Nat → List (VarMap × FlowExecutionResult)
  | [], _, _ => []
  | cfg :: rest, prevOut, ctr =>
      let current_input := stageInput pass_output prevOut cfg
      let r := executeAsync runner cfg.flow_name current_input cfg.timeout
        cfg.retry_count (uuid4 ctr)
      if r.status ≠ "success" then [(current_input, r)]
      else (current_input, r) :: pipelineAux runner pass_output rest (some r.output) (ctr + 1)

/-- Inputs-and-results trace of `execute_pipeline` (instrumented form;
`execute_pipeline` itself is its second projection). -/
def pipelineTrace (runner : Runner) (flows : List ExecConfig)
    (pass_output : Bool) : List (VarMap × FlowExecutionResult) :=
  pipelineAux runner pass_output flows none 0

/-- Embedding of `AsyncFlowExecutor.execute_pipeline`: execute the flows in
order; with `pass_output` and a nonempty results list, the input of a stage
is the previous result's `output`, otherwise its own
`flow_config.get('input_variables', {})`; stop immediately after the first
result whose status is not "success". -/
def execute_pipeline (runner : Runner) (flows : List ExecConfig)
    (pass_output : Bool) : List FlowExecutionResult :=
  (pipelineTrace runner flows pass_output).map Prod.snd

/-- Sequentiality check on event traces: the trace is a concatenation of
adjacent start/finish pairs for one flow each, i.e. no execution overlaps
another. -/
def seqTrace : List Ev → Bool
  | [] => true
  | Ev.start n :: Ev.finish m :: t => (n == m) && seqTrace t
  | _ => false

/-- Shared concrete scenario: a runner under which flow "A" exits with
return code 1 (runner failure) and every other flow exits with code 0. -/
def failARunner : Runner := fun name _ _ =>
  if name = "A" then .completes 1 "" "boom" else .completes 0 "out" ""

/-- Shared concrete scenario: a runner that always succeeds. -/
def okRunner : Runner := fun _ _ _ => .completes 0 "out" ""

/-- Shared concrete scenario: a runner that always exits with code 1. -/
def alwaysFailRunner : Runner := fun _ _ _ => .completes 1 "" "always"

/-- Shared concrete scenario: a runner that always exceeds the timeout. -/
def timesOutRunner : Runner := fun _ _ _ => .timesOut

/-- Shared concrete scenario: a runner that raises on the first attempt and
succeeds from the second attempt on. -/
def flakyRunner : Runner := fun _ _ a =>
  if a = 0 then .raises "boom" else .completes 0 "out" ""

/-- Helper: `FlowExecutor.execute` only ever produces the statuses
"success" and "failed". -/
theorem execute_status_success_or_failed (runner : Runner) (name : String)
    (input : VarMap) (t : Option Nat) (n : Nat) (eid : String) :
    (FlowExecutor.execute runner name input t n eid).status = "success"
    ∨ (FlowExecutor.execute runner name input t n eid).status = "failed" := by
  cases hc : (executeCore runner name input t n).1 with
  | error e => right; simp [FlowExecutor.execute, hc]
  | ok v => left; simp [FlowExecutor.execute, hc]

/-- Helper: `FlowExecutor.execute` reports the flow name it was given. -/
theorem execute_flow_name (runner : Runner) (name : String)
    (input : VarMap) (t : Option Nat) (n : Nat) (eid : String) :
    (FlowExecutor.execute runner name input t n eid).flow_name = name := by
  cases hc : (executeCore runner name input t n).1 with
  | error e => simp [FlowExecutor.execute, hc]
  | ok v => simp [FlowExecutor.execute, hc]

/-- Claim C10: every FlowExecutionResult has a non-empty execution_id after
construction: `__post_init__` keeps a supplied id and replaces an
unsupplied (empty) one with the fresh UUID string, so as long as the fresh
string is non-empty (UUID strings always are) the resulting id is
non-empty, and an unsupplied id becomes exactly the fresh UUID. -/
theorem execution_id_nonempty (r : FlowExecutionResult) (fresh : String)
    (hfresh : fresh ≠ "") :
    (postInit r fresh).execution_id ≠ ""
    ∧ (r.execution_id = "" → (postInit r fresh).execution_id = fresh) := by
  unfold postInit
  by_cases h : r.execution_id = "" <;> simp [h, hfresh]

/-- Witness for `execution_id_nonempty` at a concrete result with an
unsupplied execution_id and the concrete fresh string `uuid4 0`. -/
theorem execution_id_nonempty_witness :
    (postInit { flow_name := "f", status := "success", output := [] }
      (uuid4 0)).execution_id ≠ ""
    ∧ (({ flow_name := "f", status := "success", output := [] } :
        FlowExecutionResult).execution_id = "" →
      (postInit { flow_name := "f", status := "success", output := [] }
        (uuid4 0)).execution_id = uuid4 0) :=
  execution_id_nonempty { flow_name := "f", status := "success", output := [] }
    (uuid4 0) (by decide)

/-- Shared concrete scenario: a runner that raises "boom" on every
attempt. -/
def raisesRunner : Runner := fun _ _ _ => .raises "boom"

/-- Claim C3 (amended): for a WorkItem with `retry_count = n` whose runner
fails on every attempt, execution makes 1 attempt when n = 0 and exactly 3
attempts when n > 0 — the `@retry(stop=stop_after_attempt(3))` decorator on
`_execute_with_retry` ignores `retry_count` — and the final result has
status "failed". The result records no attempt count (the dataclass has no
such field). -/
theorem retry_attempts_fixed_three (runner : Runner) (name : String)
    (input : VarMap) (t : Option Nat) (n : Nat) (eid : String)
    (hfail : ∀ a, ∃ e,
      executeFlow (runner name input a) (resolveTimeout t) = .error e) :
    executeAttempts runner name input t n = (if n = 0 then 1 else 3)
    ∧ (FlowExecutor.execute runner name input t n eid).status = "failed" := by
  obtain ⟨e0, h0⟩ := hfail 0
  obtain ⟨e1, h1⟩ := hfail 1
  obtain ⟨e2, h2⟩ := hfail 2
  by_cases hn : n = 0
  · subst hn
    simp [executeAttempts, executeCore, FlowExecutor.execute, h0]
  · have hpos : 0 < n := Nat.pos_of_ne_zero hn
    simp [executeAttempts, executeCore, FlowExecutor.execute, executeWithRetry,
      hn, hpos, h0, h1, h2]

/-- Witness for `retry_attempts_fixed_three` at the always-failing runner
with `retry_count = 2` (the claim would predict 3 attempts here; the point
of the amendment is that 3 is independent of n, see the
counterexample). -/
theorem retry_attempts_fixed_three_witness :
    executeAttempts alwaysFailRunner "f" [] none 2 = (if 2 = 0 then 1 else 3)
    ∧ (FlowExecutor.execute alwaysFailRunner "f" [] none 2 "id").status = "failed" :=
  retry_attempts_fixed_three alwaysFailRunner "f" [] none 2 "id"
    (fun _ => ⟨nonzeroMsg 1 "always", rfl⟩)

/-- Counterexample to claim C3 as stated: with `retry_count = 1` and an
always-failing runner the execution makes 3 attempts, not
`retryBudget + 1 = 2`. -/
theorem retry_attempts_counterexample :
    executeAttempts alwaysFailRunner "f" [] none 1 = 3 ∧ (3 : Nat) ≠ 1 + 1 := by
  constructor
  · rfl
  · decide

/-- Claim C4 (amended): a WorkItem whose runner exceeds its timeout on
every attempt yields a result with status "failed" — the dataclass's
documented "timeout" status is never produced, because `_execute_flow`
converts `subprocess.TimeoutExpired` into a generic `Exception` that
`execute` maps to "failed" — with the timeout exception text as `error`
when `retry_count = 0`; when `retry_count > 0` the timed-out attempt is
retried, 3 attempts being made in total, but no attempt count appears on
the result. -/
theorem timeout_reported_as_failed (runner : Runner) (name : String)
    (input : VarMap) (t : Option Nat) (n : Nat) (eid : String)
    (hto : ∀ a, runner name input a = .timesOut) :
    (FlowExecutor.execute runner name input t n eid).status = "failed"
    ∧ (n = 0 → (FlowExecutor.execute runner name input t n eid).error
        = some (timeoutMsg (resolveTimeout t)))
    ∧ (0 < n → executeAttempts runner name input t n = 3) := by
  have h0 := hto 0
  have h1 := hto 1
  have h2 := hto 2
  by_cases hn : n = 0
  · subst hn
    refine ⟨?_, fun _ => ?_, fun h => absurd h (by decide)⟩
    · simp [FlowExecutor.execute, executeCore, h0, executeFlow]
    · simp [FlowExecutor.execute, executeCore, h0, executeFlow]
  · have hpos : 0 < n := Nat.pos_of_ne_zero hn
    refine ⟨?_, fun h => absurd h hn, fun _ => ?_⟩
    · simp [FlowExecutor.execute, executeCore, executeWithRetry, hn, hpos,
        h0, h1, h2, executeFlow]
    · simp [executeAttempts, executeCore, executeWithRetry, hn, hpos,
        h0, h1, h2, executeFlow]

/-- Witness for `timeout_reported_as_failed` at the always-timing-out
runner with `retry_count = 1`. -/
theorem timeout_reported_as_failed_witness :
    (FlowExecutor.execute timesOutRunner "f" [] (some 5) 1 "id").status = "failed"
    ∧ ((1 : Nat) = 0 →
        (FlowExecutor.execute timesOutRunner "f" [] (some 5) 1 "id").error
          = some (timeoutMsg (resolveTimeout (some 5))))
    ∧ ((0 : Nat) < 1 → executeAttempts timesOutRunner "f" [] (some 5) 1 = 3) :=
  timeout_reported_as_failed timesOutRunner "f" [] (some 5) 1 "id" (fun _ => rfl)

/-- Counterexample to claim C4 as stated: a runner that never returns
within its timeout produces status "failed", not the TimedOut/"timeout"
status the claim requires. -/
theorem timeout_status_counterexample :
    (FlowExecutor.execute timesOutRunner "f" [] (some 5) 0 "id").status = "failed"
    ∧ (FlowExecutor.execute timesOutRunner "f" [] (some 5) 0 "id").status ≠ "timeout" := by
  constructor
  · rfl
  · decide

/-- Claim C8 (amended): a runner exception never propagates out of
`FlowExecutor.execute`. With `retry_count = 0` a raising runner yields a
result with status "failed" whose error is exactly the exception text;
with `retry_count > 0` and every attempt raising, the result has status
"failed" but its error is the retry decorator's RetryError text, not the
runner's exception text; a raise on a non-final attempt may instead be
retried into a "success" result (see the counterexample). -/
theorem runner_exception_never_propagates (runner : Runner) (name : String)
    (input : VarMap) (t : Option Nat) (n : Nat) (eid : String) (msg : String)
    (h0 : runner name input 0 = .raises msg) :
    FlowExecutor.execute runner name input t 0 eid
      = { flow_name := name, status := "failed", output := [],
          error := some msg, execution_id := eid }
    ∧ ((∀ a, runner name input a = .raises msg) → 0 < n →
        (FlowExecutor.execute runner name input t n eid).status = "failed"
        ∧ (FlowExecutor.execute runner name input t n eid).error
            = some retryErrorMsg) := by
  constructor
  · simp [FlowExecutor.execute, executeCore, h0, executeFlow]
  · intro hall hpos
    have h1 := hall 1
    have h2 := hall 2
    have hn : n ≠ 0 := Nat.pos_iff_ne_zero.mp hpos
    constructor <;>
      simp [FlowExecutor.execute, executeCore, executeWithRetry, hn, hpos,
        h0, h1, h2, executeFlow]

/-- Witness for `runner_exception_never_propagates` at the always-raising
runner with `retry_count = 1`. -/
theorem runner_exception_never_propagates_witness :
    FlowExecutor.execute raisesRunner "f" [] none 0 "id"
      = { flow_name := "f", status := "failed", output := [],
          error := some "boom", execution_id := "id" }
    ∧ ((∀ a, raisesRunner "f" [] a = .raises "boom") → 0 < 1 →
        (FlowExecutor.execute raisesRunner "f" [] none 1 "id").status = "failed"
        ∧ (FlowExecutor.execute raisesRunner "f" [] none 1 "id").error
            = some retryErrorMsg) :=
  runner_exception_never_propagates raisesRunner "f" [] none 1 "id" "boom" rfl

/-- Counterexample to claim C8 as stated: a runner that raises on its
first attempt, combined with `retry_count = 1`, ends in a result with
status "success" — not the "failed"-with-exception-text result the claim
requires for every execution in which the runner raises. -/
theorem runner_exception_retry_counterexample :
    (FlowExecutor.execute flakyRunner "f" [] none 1 "id").status = "success"
    ∧ (FlowExecutor.execute flakyRunner "f" [] none 1 "id").status ≠ "failed" := by
  constructor
  · rfl
  · decide

/-- Helper: the pipeline loop never produces more results than it has
stages. -/
theorem pipelineAux_length_le (runner : Runner) (pass_output : Bool) :
    ∀ (flows : List ExecConfig) (prevOut : Option VarMap) (ctr : Nat),
      (pipelineAux runner pass_output flows prevOut ctr).length ≤ flows.length := by
  intro flows
  induction flows with
  | nil => intro prevOut ctr; simp [pipelineAux]
  | cons cfg rest ih =>
      intro prevOut ctr
      simp only [pipelineAux]
      split
      · simp
      · simpa using ih _ _

/-- Helper: each pipeline entry executes the stage at its own position. -/
theorem pipelineAux_entry (runner : Runner) (pass_output : Bool) :
    ∀ (flows : List ExecConfig) (prevOut : Option VarMap) (ctr : Nat) (j : Nat)
      (p : VarMap × FlowExecutionResult),
      (pipelineAux runner pass_output flows prevOut ctr)[j]? = some p →
      ∃ cfg, flows[j]? = some cfg ∧ p.2.flow_name = cfg.flow_name := by
  intro flows
  induction flows with
  | nil => intro _ _ j p hp; simp [pipelineAux] at hp
  | cons cfg rest ih =>
      intro prevOut ctr j p hp
      simp only [pipelineAux] at hp
      by_cases hs : (executeAsync runner cfg.flow_name
          (stageInput pass_output prevOut cfg) cfg.timeout cfg.retry_count
          (uuid4 ctr)).status = "success"
      · rw [if_neg (by simpa using hs)] at hp
        cases j with
        | zero =>
            simp only [List.getElem?_cons_zero, Option.some.injEq] at hp
            subst hp
            exact ⟨cfg, by simp, execute_flow_name _ _ _ _ _ _⟩
        | succ k =>
            simp only [List.getElem?_cons_succ] at hp
            obtain ⟨c, hc, hn⟩ := ih _ _ k p hp
            exact ⟨c, by simpa using hc, hn⟩
      · rw [if_pos (by simpa using hs)] at hp
        cases j with
        | zero =>
            simp only [List.getElem?_cons_zero, Option.some.injEq] at hp
            subst hp
            exact ⟨cfg, by simp, execute_flow_name _ _ _ _ _ _⟩
        | succ k => simp at hp

/-- Helper: a pipeline entry whose status is not "success" is the last
entry produced — the loop breaks immediately after appending it. -/
theorem pipelineAux_fail_last (runner : Runner) (pass_output : Bool) :
    ∀ (flows : List ExecConfig) (prevOut : Option VarMap) (ctr : Nat) (j : Nat)
      (p : VarMap × FlowExecutionResult),
      (pipelineAux runner pass_output flows prevOut ctr)[j]? = some p →
      p.2.status ≠ "success" →
      (pipelineAux runner pass_output flows prevOut ctr).length = j + 1 := by
  intro flows
  induction flows with
  | nil => intro _ _ j p hp _; simp [pipelineAux] at hp
  | cons cfg rest ih =>
      intro prevOut ctr j p hp hfail
      simp only [pipelineAux] at hp ⊢
      split at hp
      · next hcond =>
          rw [if_pos hcond]
          cases j with
          | zero => simp
          | succ k => simp at hp
      · next hcond =>
          rw [if_neg hcond]
          cases j with
          | zero =>
              simp only [List.getElem?_cons_zero, Option.some.injEq] at hp
              subst hp
              simp at hcond
              exact absurd hcond hfail
          | succ k =>
              simp only [List.getElem?_cons_succ] at hp
              simpa using ih _ _ k p hp hfail

/-- Helper: if the pipeline produced fewer results than stages, the last
result produced has a non-"success" status. -/
theorem pipelineAux_trunc (runner : Runner) (pass_output : Bool) :
    ∀ (flows : List ExecConfig) (prevOut : Option VarMap) (ctr : Nat),
      (pipelineAux runner pass_output flows prevOut ctr).length < flows.length →
      ∃ j p, (pipelineAux runner pass_output flows prevOut ctr)[j]? = some p
        ∧ p.2.status ≠ "success"
        ∧ (pipelineAux runner pass_output flows prevOut ctr).length = j + 1 := by
  intro flows
  induction flows with
  | nil => intro _ _ h; simp [pipelineAux] at h
  | cons cfg rest ih =>
      intro prevOut ctr h
      simp only [pipelineAux] at h ⊢
      split at h
      · next hcond =>
          rw [if_pos hcond]
          exact ⟨0, _, rfl, by simpa using hcond, by simp⟩
      · next hcond =>
          rw [if_neg hcond]
          simp only [List.length_cons, Nat.add_lt_add_iff_right] at h
          obtain ⟨j, p, hp, hfail, hlen⟩ := ih _ _ h
          exact ⟨j + 1, p, by simpa using hp, hfail, by simp [hlen]⟩

/-- Helper: with `pass_output` true and a previous output available, the
first executed stage runs with that previous output as its input. -/
theorem pipelineAux_head_input (runner : Runner) :
    ∀ (flows : List ExecConfig) (o : VarMap) (ctr : Nat)
      (q : VarMap × FlowExecutionResult),
      (pipelineAux runner true flows (some o) ctr)[0]? = some q → q.1 = o := by
  intro flows o ctr q hq
  cases flows with
  | nil => simp [pipelineAux] at hq
  | cons cfg rest =>
      simp only [pipelineAux] at hq
      split at hq <;>
        · simp only [List.getElem?_cons_zero, Option.some.injEq] at hq
          subst hq
          simp [stageInput]

/-- Helper: the `stageInput` of a stage when `pass_output` is false is
always the stage's own declared input. -/
theorem stageInput_false (prevOut : Option VarMap) (cfg : ExecConfig) :
    stageInput false prevOut cfg = cfg.input_variables := by
  cases prevOut <;> simp [stageInput]

/-- Helper: with `pass_output` true, each pipeline entry past the first
runs with the previous entry's result output as its input. -/
theorem pipelineAux_chain (runner : Runner) :
    ∀ (flows : List ExecConfig) (prevOut : Option VarMap) (ctr : Nat) (j : Nat)
      (p q : VarMap × FlowExecutionResult),
      (pipelineAux runner true flows prevOut ctr)[j]? = some p →
      (pipelineAux runner true flows prevOut ctr)[j + 1]? = some q →
      q.1 = p.2.output := by
  intro flows
  induction flows with
  | nil => intro _ _ j p q hp _; simp [pipelineAux] at hp
  | cons cfg rest ih =>
      intro prevOut ctr j p q hp hq
      simp only [pipelineAux] at hp hq
      split at hp
      · next hcond =>
          rw [if_pos hcond] at hq
          simp at hq
      · next hcond =>
          rw [if_neg hcond] at hq
          cases j with
          | zero =>
              simp only [List.getElem?_cons_zero, Option.some.injEq] at hp
              subst hp
              simp only [List.getElem?_cons_succ] at hq
              exact pipelineAux_head_input runner rest _ _ q hq
          | succ k =>
              simp only [List.getElem?_cons_succ] at hp hq
              exact ih _ _ k p q hp hq

/-- Helper: with `pass_output` false, each pipeline entry runs with the
declared input of the stage at its position. -/
theorem pipelineAux_declared_input (runner : Runner) :
    ∀ (flows : List ExecConfig) (prevOut : Option VarMap) (ctr : Nat) (j : Nat)
      (q : VarMap × FlowExecutionResult),
      (pipelineAux runner false flows prevOut ctr)[j]? = some q →
      ∃ cfg, flows[j]? = some cfg ∧ q.1 = cfg.input_variables := by
  intro flows
  induction flows with
  | nil => intro _ _ j q hq; simp [pipelineAux] at hq
  | cons cfg rest ih =>
      intro prevOut ctr j q hq
      simp only [pipelineAux] at hq
      split at hq
      · cases j with
        | zero =>
            simp only [List.getElem?_cons_zero, Option.some.injEq] at hq
            subst hq
            exact ⟨cfg, by simp, stageInput_false prevOut cfg⟩
        | succ k => simp at hq
      · cases j with
        | zero =>
            simp only [List.getElem?_cons_zero, Option.some.injEq] at hq
            subst hq
            exact ⟨cfg, by simp, stageInput_false prevOut cfg⟩
        | succ k =>
            simp only [List.getElem?_cons_succ] at hq
            obtain ⟨c, hc, hi⟩ := ih _ _ k q hq
            exact ⟨c, by simpa using hc, hi⟩

/-- Claim C6 (amended): the result list of `execute_pipeline` is a prefix
of the input list — at most one result per stage, positionally matching
the stages — in which any non-"success" result is the last result
produced, and whenever the pipeline was truncated the last result produced
is a non-"success" one. The prefix is not strict in general: when every
stage succeeds (and when the only failing stage is the last one) the full
list is returned. -/
theorem pipeline_prefix_results (runner : Runner) (flows : List ExecConfig)
    (pass_output : Bool) :
    (execute_pipeline runner flows pass_output).length ≤ flows.length
    ∧ (∀ (j : Nat) (r : FlowExecutionResult),
        (execute_pipeline runner flows pass_output)[j]? = some r →
        ∃ cfg, flows[j]? = some cfg ∧ r.flow_name = cfg.flow_name)
    ∧ (∀ (j : Nat) (r : FlowExecutionResult),
        (execute_pipeline runner flows pass_output)[j]? = some r →
        r.status ≠ "success" →
        (execute_pipeline runner flows pass_output).length = j + 1)
    ∧ ((execute_pipeline runner flows pass_output).length < flows.length →
        ∃ (j : Nat) (r : FlowExecutionResult),
          (execute_pipeline runner flows pass_output)[j]? = some r
          ∧ r.status ≠ "success"
          ∧ (execute_pipeline runner flows pass_output).length = j + 1) := by
  unfold execute_pipeline pipelineTrace
  refine ⟨?_, ?_, ?_, ?_⟩
  · simpa using pipelineAux_length_le runner pass_output flows none 0
  · intro j r hr
    rw [List.getElem?_map] at hr
    rcases h : (pipelineAux runner pass_output flows none 0)[j]? with _ | p
    · rw [h] at hr; simp at hr
    · rw [h] at hr
      simp only [Option.map_some', Option.some.injEq] at hr
      obtain ⟨cfg, hc, hn⟩ := pipelineAux_entry runner pass_output flows none 0 j p h
      exact ⟨cfg, hc, hr ▸ hn⟩
  · intro j r hr hfail
    rw [List.getElem?_map] at hr
    rcases h : (pipelineAux runner pass_output flows none 0)[j]? with _ | p
    · rw [h] at hr; simp at hr
    · rw [h] at hr
      simp only [Option.map_some', Option.some.injEq] at hr
      have := pipelineAux_fail_last runner pass_output flows none 0 j p h (hr ▸ hfail)
      simpa using this
  · intro hlt
    rw [List.length_map] at hlt
    obtain ⟨j, p, hp, hfail, hlen⟩ := pipelineAux_trunc runner pass_output flows none 0 hlt
    refine ⟨j, p.2, ?_, hfail, by simpa using hlen⟩
    rw [List.getElem?_map, hp, Option.map_some']

/-- Shared concrete scenario: a three-stage pipeline whose middle stage is
the failing flow "A". -/
def pipe3 : List ExecConfig :=
  [{ flow_name := "B" }, { flow_name := "A" }, { flow_name := "C" }]

/-- The second (failing) result of running `pipe3` under `failARunner`. -/
def pipeFailEntry : FlowExecutionResult :=
  ((execute_pipeline failARunner pipe3 true)[1]?).getD
    { flow_name := "", status := "", output := [] }

/-- Witness for `pipeline_prefix_results`: under `failARunner`, `pipe3`
produces two results (stage "C" never runs) and the failing result at
position 1 is the last one. -/
theorem pipeline_prefix_results_witness :
    (execute_pipeline failARunner pipe3 true).length ≤ pipe3.length
    ∧ (execute_pipeline failARunner pipe3 true).length = 1 + 1 :=
  ⟨(pipeline_prefix_results failARunner pipe3 true).1,
   (pipeline_prefix_results failARunner pipe3 true).2.2.1 1 pipeFailEntry rfl
     (by decide)⟩

/-- Counterexample to claim C6 as stated: a pipeline whose stages all
succeed returns one result per stage — the whole list, which is not a
strict prefix of the input list. -/
theorem pipeline_strict_prefix_counterexample :
    (execute_pipeline okRunner [{ flow_name := "A" }] true).length = 1
    ∧ ¬ ((execute_pipeline okRunner [{ flow_name := "A" }] true).length
        < ([{ flow_name := "A" }] : List ExecConfig).length) := by
  constructor
  · rfl
  · decide

/-- Claim C7: with `pass_output` true, every pipeline entry past the first
runs with exactly the previous entry's result output as its input; with
`pass_output` false, every entry runs with the declared input of the stage
at its own position. -/
theorem pipeline_output_threading (runner : Runner) (flows : List ExecConfig) :
    (∀ (j : Nat) (p q : VarMap × FlowExecutionResult),
        (pipelineTrace runner flows true)[j]? = some p →
        (pipelineTrace runner flows true)[j + 1]? = some q →
        q.1 = p.2.output)
    ∧ (∀ (j : Nat) (q : VarMap × FlowExecutionResult),
        (pipelineTrace runner flows false)[j]? = some q →
        ∃ cfg, flows[j]? = some cfg ∧ q.1 = cfg.input_variables) := by
  unfold pipelineTrace
  constructor
  · intro j p q hp hq
    exact pipelineAux_chain runner flows none 0 j p q hp hq
  · intro j q hq
    exact pipelineAux_declared_input runner flows none 0 j q hq

/-- Shared concrete scenario: a two-stage pipeline with distinct declared
inputs. -/
def thread2 : List ExecConfig :=
  [{ flow_name := "X", input_variables := [("k", PyVal.str "v")] },
   { flow_name := "Y", input_variables := [("w", PyVal.str "z")] }]

/-- First entry (input, result) of running `thread2` with output
passing. -/
def threadEntry0 : VarMap × FlowExecutionResult :=
  ((pipelineTrace okRunner thread2 true)[0]?).getD
    ([], { flow_name := "", status := "", output := [] })

/-- Second entry (input, result) of running `thread2` with output
passing. -/
def threadEntry1 : VarMap × FlowExecutionResult :=
  ((pipelineTrace okRunner thread2 true)[1]?).getD
    ([], { flow_name := "", status := "", output := [] })

/-- Second entry (input, result) of running `thread2` without output
passing. -/
def threadEntryNoPass : VarMap × FlowExecutionResult :=
  ((pipelineTrace okRunner thread2 false)[1]?).getD
    ([], { flow_name := "", status := "", output := [] })

/-- Witness for `pipeline_output_threading` on `thread2`: with output
passing, stage "Y" runs with stage "X"'s result output; without it, stage
"Y" runs with its own declared input. -/
theorem pipeline_output_threading_witness :
    threadEntry1.1 = threadEntry0.2.output
    ∧ ∃ cfg, thread2[1]? = some cfg
        ∧ threadEntryNoPass.1 = cfg.input_variables :=
  ⟨(pipeline_output_threading okRunner thread2).1 0 threadEntry0 threadEntry1
      rfl rfl,
   (pipeline_output_threading okRunner thread2).2 1 threadEntryNoPass rfl⟩

/-- Helper: the batch produces exactly one result per submitted entry. -/
theorem batchRun_length (runner : Runner) :
    ∀ (executions : List ExecConfig) (ctr : Nat),
      (batchRun runner executions ctr).length = executions.length := by
  intro executions
  induction executions with
  | nil => intro ctr; simp [batchRun]
  | cons cfg rest ih => intro ctr; simp [batchRun, ih]

/-- Helper: every batch result has status "success" or "failed". -/
theorem batchRun_status (runner : Runner) :
    ∀ (executions : List ExecConfig) (ctr : Nat) (r : FlowExecutionResult),
      r ∈ batchRun runner executions ctr →
      r.status = "success" ∨ r.status = "failed" := by
  intro executions
  induction executions with
  | nil => intro ctr r hr; simp [batchRun] at hr
  | cons cfg rest ih =>
      intro ctr r hr
      simp only [batchRun, List.mem_cons] at hr
      rcases hr with h | h
      · subst h
        exact execute_status_success_or_failed runner cfg.flow_name
          cfg.input_variables cfg.timeout cfg.retry_count (uuid4 ctr)
      · exact ih _ r h

/-- Claim C5 (amended): with `fail_fast = true`, a non-Success result
triggers no cancellation at all — `execute_batch` is insensitive to the
flag (the two `gather` variants differ only when a task raises, and flow
failures are returned as status-"failed" results, never raised), every
item runs to its own terminal state, exactly one result per item is
returned in submission order, and no result ever has a "cancelled"
status. -/
theorem batch_failfast_no_cancellation (runner : Runner)
    (executions : List ExecConfig) :
    execute_batch runner executions true = execute_batch runner executions false
    ∧ (execute_batch runner executions true).length = executions.length
    ∧ ∀ r ∈ execute_batch runner executions true,
        r.status = "success" ∨ r.status = "failed" := by
  refine ⟨rfl, batchRun_length runner executions 0, ?_⟩
  intro r hr
  exact batchRun_status runner executions 0 r hr

/-- Shared concrete scenario: a three-item batch whose first item is the
failing flow "A". -/
def batch3 : List ExecConfig :=
  [{ flow_name := "A" }, { flow_name := "B" }, { flow_name := "C" }]

/-- The first result of running `batch3` under `failARunner`. -/
def batchHeadResult : FlowExecutionResult :=
  ((execute_batch failARunner batch3 true)[0]?).getD
    { flow_name := "", status := "", output := [] }

/-- Witness for `batch_failfast_no_cancellation` on the concrete
three-item batch with a failing first item. -/
theorem batch_failfast_no_cancellation_witness :
    execute_batch failARunner batch3 true = execute_batch failARunner batch3 false
    ∧ (execute_batch failARunner batch3 true).length = batch3.length
    ∧ (batchHeadResult.status = "success" ∨ batchHeadResult.status = "failed") :=
  ⟨(batch_failfast_no_cancellation failARunner batch3).1,
   (batch_failfast_no_cancellation failARunner batch3).2.1,
   (batch_failfast_no_cancellation failARunner batch3).2.2 batchHeadResult
     (by decide)⟩

/-- Counterexample to claim C5 as stated: with `fail_fast = true` and a
batch whose first item fails, the other items still run to their own
outcomes — no item is cancelled and the outcome list is identical to the
`fail_fast = false` run. -/
theorem batch_failfast_counterexample :
    (execute_batch failARunner batch3 true).map FlowExecutionResult.status
      = ["failed", "success", "success"]
    ∧ execute_batch failARunner batch3 true
        = execute_batch failARunner batch3 false := by
  constructor
  · rfl
  · rfl

/-- Helper: a wave produces exactly one result per ready flow, keyed by
that flow's name. -/
theorem runWave_keys (runner : Runner) (graph : FlowGraph) :
    ∀ (ready : List String) (ctr : Nat),
      (runWave runner graph ready ctr).1.map Prod.fst = ready := by
  intro ready
  induction ready with
  | nil => intro ctr; simp [runWave]
  | cons n rest ih => intro ctr; simp [runWave, ih]

/-- Helper: every wave result has status "success" or "failed". -/
theorem runWave_status (runner : Runner) (graph : FlowGraph) :
    ∀ (ready : List String) (ctr : Nat) (p : String × FlowExecutionResult),
      p ∈ (runWave runner graph ready ctr).1 →
      p.2.status = "success" ∨ p.2.status = "failed" := by
  intro ready
  induction ready with
  | nil => intro ctr p hp; simp [runWave] at hp
  | cons n rest ih =>
      intro ctr p hp
      simp only [runWave, List.mem_cons] at hp
      rcases hp with h | h
      · subst h
        exact execute_status_success_or_failed runner n _ _ _ (uuid4 ctr)
      · exact ih _ p h

/-- Helper: `hasResult` is membership of the key list. -/
theorem hasResult_iff (results : List (String × FlowExecutionResult))
    (n : String) :
    hasResult results n = true ↔ n ∈ results.map Prod.fst := by
  simp [hasResult, List.any_eq_true, List.mem_map]

/-- Helper: every executing round of the dependency loop preserves the
fact that all accumulated results have status "success" or "failed". -/
theorem runGraphAux_ok_status (runner : Runner) (graph : FlowGraph) :
    ∀ (fuel : Nat) (remaining : List String)
      (results : List (String × FlowExecutionResult)) (trace : List Ev)
      (ctr : Nat) (res : List (String × FlowExecutionResult)) (tr : List Ev),
      runGraphAux runner graph fuel remaining results trace ctr = (.ok res, tr) →
      (∀ p ∈ results, p.2.status = "success" ∨ p.2.status = "failed") →
      ∀ p ∈ res, p.2.status = "success" ∨ p.2.status = "failed" := by
  intro fuel
  induction fuel with
  | zero =>
      intro remaining results trace ctr res tr hrun hres p hp
      cases remaining with
      | nil =>
          simp only [runGraphAux, Prod.mk.injEq, Except.ok.injEq] at hrun
          exact hres p (hrun.1.symm ▸ hp)
      | cons a as => simp [runGraphAux] at hrun
  | succ fuel ih =>
      intro remaining results trace ctr res tr hrun hres p hp
      cases remaining with
      | nil =>
          simp only [runGraphAux, Prod.mk.injEq, Except.ok.injEq] at hrun
          exact hres p (hrun.1.symm ▸ hp)
      | cons a as =>
          simp only [runGraphAux] at hrun
          split at hrun
          · simp at hrun
          · refine ih _ _ _ _ _ _ hrun ?_ p hp
            intro q hq
            rcases List.mem_append.mp hq with h | h
            · exact hres q h
            · exact runWave_status runner graph _ _ q h

/-- Helper: when the dependency loop returns normally, every flow that was
still remaining (and every already-recorded one) has a result. -/
theorem runGraphAux_ok_complete (runner : Runner) (graph : FlowGraph) :
    ∀ (fuel : Nat) (remaining : List String)
      (results : List (String × FlowExecutionResult)) (trace : List Ev)
      (ctr : Nat) (res : List (String × FlowExecutionResult)) (tr : List Ev),
      runGraphAux runner graph fuel remaining results trace ctr = (.ok res, tr) →
      ∀ n, (n ∈ remaining ∨ hasResult results n = true) → hasResult res n = true := by
  intro fuel
  induction fuel with
  | zero =>
      intro remaining results trace ctr res tr hrun n hn
      cases remaining with
      | nil =>
          simp only [runGraphAux, Prod.mk.injEq, Except.ok.injEq] at hrun
          rcases hn with h | h
          · simp at h
          · exact hrun.1 ▸ h
      | cons a as => simp [runGraphAux] at hrun
  | succ fuel ih =>
      intro remaining results trace ctr res tr hrun n hn
      cases remaining with
      | nil =>
          simp only [runGraphAux, Prod.mk.injEq, Except.ok.injEq] at hrun
          rcases hn with h | h
          · simp at h
          · exact hrun.1 ▸ h
      | cons a as =>
          simp only [runGraphAux] at hrun
          split at hrun
          · simp at hrun
          · refine ih _ _ _ _ _ _ hrun n ?_
            rcases hn with h | h
            · by_cases hrdy : n ∈ readyFlows graph (a :: as) results
              · right
                rw [hasResult_iff, List.map_append, List.mem_append]
                right
                rw [runWave_keys]
                exact hrdy
              · left
                simp only [List.mem_filter]
                exact ⟨h, by simpa using hrdy⟩
            · right
              rw [hasResult_iff, List.map_append, List.mem_append]
              left
              exact (hasResult_iff results n).mp h

/-- Claim C1 (amended): when `execute_with_dependencies` returns normally,
every submitted flow — including every dependent of a failed flow — has a
result, and every result reflects that flow's own execution with status
"success" or "failed"; no result is ever "cancelled" and no errorDetail
referring to an unmet dependency exists. A dependent becomes ready as soon
as each of its dependencies has any recorded result, whatever its
status. -/
theorem graph_dependents_still_run (runner : Runner) (graph : FlowGraph)
    (res : List (String × FlowExecutionResult)) (tr : List Ev)
    (hok : runGraph runner graph = (.ok res, tr)) :
    (∀ n ∈ graph.map Prod.fst, hasResult res n = true)
    ∧ ∀ p ∈ res, p.2.status = "success" ∨ p.2.status = "failed" := by
  unfold runGraph at hok
  constructor
  · intro n hn
    exact runGraphAux_ok_complete runner graph graph.length
      (graph.map Prod.fst) [] [] 0 res tr hok n (Or.inl hn)
  · exact runGraphAux_ok_status runner graph graph.length
      (graph.map Prod.fst) [] [] 0 res tr hok (by simp)

/-- Shared concrete scenario: the spec's example graph
{A: deps=[], B: deps=[A], C: deps=[A]}. -/
def depGraph : FlowGraph :=
  [("A", {}), ("B", { dependencies := ["A"] }), ("C", { dependencies := ["A"] })]

/-- Results of running `depGraph` under `failARunner` (A fails). -/
def depRes : List (String × FlowExecutionResult) :=
  ((runGraph failARunner depGraph).1.toOption).getD []

/-- Event trace of running `depGraph` under `failARunner`. -/
def depTrace : List Ev := (runGraph failARunner depGraph).2

/-- Witness for `graph_dependents_still_run` on the example graph with a
failing dependency. -/
theorem graph_dependents_still_run_witness :
    (∀ n ∈ depGraph.map Prod.fst, hasResult depRes n = true)
    ∧ ∀ p ∈ depRes, p.2.status = "success" ∨ p.2.status = "failed" :=
  graph_dependents_still_run failARunner depGraph depRes depTrace rfl

/-- Counterexample to claim C1 as stated: in the example graph where "A"
fails, its dependents "B" and "C" are still started and executed, ending
with status "success" — not "never started and recorded Cancelled". -/
theorem graph_failed_dependency_counterexample :
    depRes.map (fun p => (p.1, p.2.status))
      = [("A", "failed"), ("B", "success"), ("C", "success")]
    ∧ Ev.start "B" ∈ depTrace := by
  constructor
  · rfl
  · decide

/-- Helper: `cfgOf` returns the configuration of an entry of the graph. -/
theorem cfgOf_mem (graph : FlowGraph) (n : String)
    (hn : n ∈ graph.map Prod.fst) :
    ∃ p, p ∈ graph ∧ p.1 = n ∧ cfgOf graph n = p.2 := by
  induction graph with
  | nil => simp at hn
  | cons g gs ih =>
      by_cases h : g.1 = n
      · exact ⟨g, List.mem_cons_self g gs, h, by simp [cfgOf, List.find?_cons, h]⟩
      · have hn' : n ∈ gs.map Prod.fst := by
          rw [List.map_cons, List.mem_cons] at hn
          rcases hn with h1 | h1
          · exact absurd h1.symm h
          · exact h1
        obtain ⟨p, hp, hpn, hcfg⟩ := ih hn'
        refine ⟨p, List.mem_cons_of_mem g hp, hpn, ?_⟩
        rw [← hcfg]
        simp [cfgOf, List.find?_cons, h]

/-- Helper: with no results recorded yet, no flow with a nonempty
dependency list is ready. -/
theorem readyFlows_nil_results (graph : FlowGraph)
    (hdeps : ∀ p ∈ graph, p.2.dependencies ≠ []) (remaining : List String)
    (hrem : ∀ n ∈ remaining, n ∈ graph.map Prod.fst) :
    readyFlows graph remaining [] = [] := by
  rw [readyFlows, List.filter_eq_nil_iff]
  intro n hn
  obtain ⟨p, hp, hpn, hcfg⟩ := cfgOf_mem graph n (hrem n hn)
  have hne := hdeps p hp
  rw [hcfg]
  cases hd : p.2.dependencies with
  | nil => exact absurd hd hne
  | cons d ds => simp [hd, hasResult]

/-- Claim C2 (amended): when every flow of a nonempty graph declares at
least one dependency (as in a fully cyclic graph), the whole call is
rejected up front: `execute_with_dependencies` raises
`ValueError("Circular dependency detected in flow graph")` before any flow
runs, and no results are returned. In general, however, the `ValueError`
is only raised when some round finds no ready flow, and flows of earlier
rounds have already executed by then (their results being discarded by the
exception) — see the counterexample. -/
theorem graph_blocked_rejected_upfront (runner : Runner) (graph : FlowGraph)
    (hne : graph ≠ [])
    (hdeps : ∀ p ∈ graph, p.2.dependencies ≠ []) :
    runGraph runner graph = (.error circularMsg, []) := by
  unfold runGraph
  have hready : readyFlows graph (graph.map Prod.fst) [] = [] :=
    readyFlows_nil_results graph hdeps (graph.map Prod.fst) (fun n hn => hn)
  cases hg : graph with
  | nil => exact absurd hg hne
  | cons g gs =>
      rw [← hg]
      rw [show graph.length = (graph.map Prod.fst).length by simp]
      cases hm : graph.map Prod.fst with
      | nil => simp [hg] at hm
      | cons a as =>
          simp only [List.length_cons, runGraphAux]
          rw [← hm, hready]
          simp

/-- Shared concrete scenario: a two-flow cycle (every flow has a
dependency). -/
def cycGraph : FlowGraph :=
  [("X", { dependencies := ["Y"] }), ("Y", { dependencies := ["X"] })]

/-- Witness for `graph_blocked_rejected_upfront` on the two-flow cycle. -/
theorem graph_blocked_rejected_upfront_witness :
    runGraph okRunner cycGraph = (.error circularMsg, []) :=
  graph_blocked_rejected_upfront okRunner cycGraph (by decide) (by decide)

/-- Shared concrete scenario: a graph with one runnable flow "A" and one
self-cyclic flow "B". -/
def mixedGraph : FlowGraph := [("A", {}), ("B", { dependencies := ["B"] })]

/-- Counterexample to claim C2 as stated: in a graph whose flow "A" is
runnable and whose flow "B" depends on itself, the cycle `ValueError` is
raised only after "A" has already been executed — the rejection is not
atomic and not before any item runs (though the exception does discard all
results). -/
theorem graph_validation_after_execution_counterexample :
    (runGraph okRunner mixedGraph).1 = .error circularMsg
    ∧ Ev.start "A" ∈ (runGraph okRunner mixedGraph).2 := by
  constructor
  · rfl
  · decide

/-- Helper: a sequential trace can be peeled off the front of a
concatenation. -/
theorem seqTrace_append (a b : List Ev) (ha : seqTrace a = true) :
    seqTrace (a ++ b) = seqTrace b := by
  induction a using seqTrace.induct with
  | case1 => simp
  | case2 n m t ih =>
      simp only [seqTrace, Bool.and_eq_true] at ha
      simp only [List.cons_append, seqTrace, ha.1, Bool.true_and]
      exact ih ha.2
  | case3 x h1 h2 =>
      exfalso
      rcases x with _ | ⟨e, t⟩
      · exact h1 rfl
      · rcases e with n | n
        · rcases t with _ | ⟨e2, t2⟩
          · simp [seqTrace] at ha
          · rcases e2 with m | m
            · simp [seqTrace] at ha
            · exact h2 n m t2 rfl
        · simp [seqTrace] at ha

/-- Helper: the trace of one wave is sequential — each ready flow is
awaited to completion before the next one starts. -/
theorem runWave_seqTrace (runner : Runner) (graph : FlowGraph) :
    ∀ (ready : List String) (ctr : Nat),
      seqTrace (runWave runner graph ready ctr).2 = true := by
  intro ready
  induction ready with
  | nil => intro ctr; simp [runWave, seqTrace]
  | cons n rest ih =>
      intro ctr
      simp [runWave, seqTrace, ih]

/-- Helper: the dependency loop only ever extends a sequential trace into
a sequential trace. -/
theorem runGraphAux_seqTrace (runner : Runner) (graph : FlowGraph) :
    ∀ (fuel : Nat) (remaining : List String)
      (results : List (String × FlowExecutionResult)) (trace : List Ev)
      (ctr : Nat),
      seqTrace trace = true →
      seqTrace (runGraphAux runner graph fuel remaining results trace ctr).2 = true := by
  intro fuel
  induction fuel with
  | zero =>
      intro remaining results trace ctr htr
      cases remaining with
      | nil => simpa [runGraphAux] using htr
      | cons a as => simpa [runGraphAux] using htr
  | succ fuel ih =>
      intro remaining results trace ctr htr
      cases remaining with
      | nil => simpa [runGraphAux] using htr
      | cons a as =>
          simp only [runGraphAux]
          split
          · simpa using htr
          · refine ih _ _ _ _ ?_
            rw [seqTrace_append _ _ htr]
            exact runWave_seqTrace runner graph _ _

/-- Claim C9 (amended): items of a wave do not run concurrently — the wave
tasks are bare coroutines awaited one at a time, so the whole execution
trace of `execute_with_dependencies` is strictly sequential: it is a
concatenation of adjacent start/finish pairs, each flow finishing before
the next one starts. -/
theorem graph_waves_sequential (runner : Runner) (graph : FlowGraph) :
    seqTrace (runGraph runner graph).2 = true := by
  unfold runGraph
  exact runGraphAux_seqTrace runner graph _ _ _ _ _ rfl

/-- Counterexample to claim C9 as stated: in the example graph
{A: deps=[], B: deps=[A], C: deps=[A]}, the second wave's flows "B" and
"C" do not overlap — "B" finishes before "C" starts. -/
theorem graph_wave_concurrency_counterexample :
    (runGraph okRunner depGraph).2
      = [Ev.start "A", Ev.finish "A", Ev.start "B", Ev.finish "B",
         Ev.start "C", Ev.finish "C"]
    ∧ List.indexOf (Ev.finish "B") (runGraph okRunner depGraph).2
        < List.indexOf (Ev.start "C") (runGraph okRunner depGraph).2 := by
  constructor
  · rfl
  · decide
